import Mathlib

/-!
Shallow embedding of the streaming query view of the repository
(src/apps/web-antd/src/views/aidata/query/index.vue) together with the
connection registry DTOs (src/apps/web-antd/src/views/aidata/connector/data.ts).

Modelling notes, each tied to the source:

* ChatMessage mirrors the ChatMessage interface of the view (id, type,
  content, loading, error).  The timestamp field of the source is a wall
  clock value that no verified property mentions, so it is not modelled.
* Fresh identifiers: the source generates string ids with Date.now plus a
  random suffix; the model draws them from a monotone counter (nextId)
  stored in the state and keeps them as naturals, which preserves exactly
  the property the source relies on, namely that every generated id and
  every channel identity is fresh.  The JS String.prototype.trim is
  modelled structurally as jsTrim (the core String.trim is defined by
  well-founded recursion and would not evaluate inside the kernel).
* The EventSource channel is modelled by a Channel record holding its
  identity (cid) and the closure variable aiContent that the source keeps
  per channel inside handleSend.  openChannels is the multiset of channels
  that have been created and not yet closed; eventSource is the single
  mutable reference eventSource.value of the source (holding the cid of the
  referenced channel, or none for null).  A browser EventSource delivers
  events only between creation and close, and each delivery runs the
  handlers installed on that very channel; the step function therefore
  applies the onmessage / onerror bodies of channel cid exactly when a
  channel with that cid is still open, and ignores the event otherwise.
* message.warning / message.error popups are modelled by appending the
  message text to a notifications list.
* JS truthiness is modelled where the source relies on it: an empty trimmed
  query string is falsy, a null or zero selectedConnectionId is falsy, an
  absent or empty content field of a chunk is falsy, an absent is_final is
  false.
* The catch branch around the EventSource constructor (lines 145 to 155 of
  the view) would require modelling a constructor that throws; no claim
  depends on it and it is not modelled.
-/

/-- Role of a chat message: the type field of the ChatMessage interface. -/
inductive Role where
  | user
  | assistant
deriving DecidableEq, Repr

/-- ChatMessage of the view (timestamp omitted, ids as naturals, see the
header note). -/
structure ChatMessage where
  id : Nat
  type : Role
  content : String
  loading : Bool
  error : Option String
deriving DecidableEq, Repr

/-- Whitespace for the JS trim: space, tab, and line terminators. -/
def isJsWhitespace (c : Char) : Bool :=
  c = ' ' || c = '\t' || c = '\n' || c = '\r' || c = '\x0b' || c = '\x0c'

/-- Structural model of the JS String.prototype.trim: drop whitespace from
both ends. -/
def jsTrim (s : String) : String :=
  ⟨((s.data.dropWhile isJsWhitespace).reverse.dropWhile isJsWhitespace).reverse⟩

/-- ConnSourceDTO of connector/data.ts. -/
structure ConnSourceDTO where
  id : Int
  name : String
  conn_type : String
  host : String
  port : Int
  username : String
  password_encrypted : String
  db_name : String
  status : Int
  description : Option String
deriving DecidableEq, Repr

/-- PageData of connector/data.ts (page and size are unused by the view). -/
structure PageData where
  items : List ConnSourceDTO
  total : Nat
deriving DecidableEq, Repr

/-- One streaming channel: its identity and the closure variable aiContent
of the handleSend invocation that created it. -/
structure Channel where
  cid : Nat
  aiContent : String
deriving DecidableEq, Repr

/-- The reactive state of the query view: query, loading, messages,
connections, selectedConnectionId, eventSource, currentSessionId, plus the
model bookkeeping fields openChannels, notifications and nextId. -/
structure QueryViewState where
  query : String
  loading : Bool
  messages : List ChatMessage
  connections : List ConnSourceDTO
  selectedConnectionId : Option Int
  eventSource : Option Nat
  openChannels : List Channel
  currentSessionId : Nat
  notifications : List String
  nextId : Nat
deriving DecidableEq, Repr

/-- A parsed SSE chunk payload: optional content and optional is_final
(absent modelled as false). -/
structure ChunkData where
  content : Option String
  is_final : Bool
deriving DecidableEq, Repr

/-- JS truthiness of selectedConnectionId.value (number or null): null and
zero are falsy. -/
def connSelected (o : Option Int) : Bool :=
  match o with
  | none => false
  | some n => n != 0

/-- The in-place mutation pattern of the view:
messages.value[messages.value.length - 1] is read, and mutated only when it
exists and has type assistant. -/
def updateLast (f : ChatMessage → ChatMessage) (l : List ChatMessage) : List ChatMessage :=
  match l.getLast? with
  | some m => if m.type = Role.assistant then l.dropLast ++ [f m] else l
  | none => l

/-- handleSend of the view, lines 44 to 156: validation guards, appending
the user turn and the pending assistant turn, closing the previous channel
and opening a fresh one. -/
def handleSend (s : QueryViewState) : QueryViewState :=
  if jsTrim s.query = "" then
    { s with notifications := s.notifications ++ ["请输入问题"] }
  else if !connSelected s.selectedConnectionId then
    { s with notifications := s.notifications ++ ["请先选择数据源"] }
  else if s.loading then s
  else
    let currentQuery := jsTrim s.query
    let userMessage : ChatMessage :=
      { id := s.nextId, type := Role.user, content := currentQuery,
        loading := false, error := none }
    let aiMessage : ChatMessage :=
      { id := s.nextId + 1, type := Role.assistant, content := "",
        loading := true, error := none }
    let afterClose :=
      match s.eventSource with
      | some cid => s.openChannels.filter (fun c => !(c.cid == cid))
      | none => s.openChannels
    let newChan : Channel := { cid := s.nextId + 3, aiContent := "" }
    { s with
      messages := s.messages ++ [userMessage, aiMessage],
      query := "",
      loading := true,
      currentSessionId := s.nextId + 2,
      eventSource := some newChan.cid,
      openChannels := afterClose ++ [newChan],
      nextId := s.nextId + 4 }

/-- The content branch of es.onmessage, lines 104 to 112: when data.content
is truthy, extend the closure variable aiContent and rewrite the last
message when it is an assistant message. -/
def appendContent (s : QueryViewState) (ch : Channel) (data : ChunkData) :
    QueryViewState × Channel :=
  match data.content with
  | some str =>
    if str = "" then (s, ch)
    else
      let newText := ch.aiContent ++ str
      let ch2 : Channel := { ch with aiContent := newText }
      ({ s with
          openChannels := s.openChannels.map (fun c => if c.cid == ch.cid then ch2 else c),
          messages := updateLast
            (fun m => { m with content := newText, loading := !data.is_final }) s.messages },
        ch2)
  | none => (s, ch)

/-- The final branch of es.onmessage, lines 115 to 124: close the channel,
null the eventSource reference, clear loading, and force the loading flag of
the last assistant message to false. -/
def finalize (s : QueryViewState) (ch : Channel) : QueryViewState :=
  { s with
    openChannels := s.openChannels.filter (fun c => !(c.cid == ch.cid)),
    eventSource := none,
    loading := false,
    messages := updateLast (fun m => { m with loading := false }) s.messages }

/-- es.onmessage of the view, lines 100 to 128.  A payload of none models a
JSON.parse failure: the catch branch only logs, so the state is unchanged. -/
def onmessage (s : QueryViewState) (ch : Channel) (eventType : String)
    (payload : Option ChunkData) : QueryViewState :=
  match payload with
  | none => s
  | some data =>
    let s1 := (appendContent s ch data).1
    if data.is_final || eventType == "final_result" then finalize s1 ch
    else s1

/-- es.onerror of the view, lines 131 to 144: close the channel, null the
reference, clear loading, mark the last assistant message with a fixed
error text, and surface a popup with the same text. -/
def onerror (s : QueryViewState) (ch : Channel) : QueryViewState :=
  { s with
    openChannels := s.openChannels.filter (fun c => !(c.cid == ch.cid)),
    eventSource := none,
    loading := false,
    messages := updateLast
      (fun m => { m with loading := false, error := some "连接失败，请稍后重试" }) s.messages,
    notifications := s.notifications ++ ["连接失败，请稍后重试"] }

/-- handleClear of the view, lines 167 to 174. -/
def handleClear (s : QueryViewState) : QueryViewState :=
  { s with
    messages := [],
    openChannels :=
      match s.eventSource with
      | some cid => s.openChannels.filter (fun c => !(c.cid == cid))
      | none => s.openChannels,
    eventSource := none,
    loading := false }

/-- loadConnections of the view, lines 30 to 41, with the outcome of
getConnSourcesApi passed explicitly: on success filter to status equal one
and auto-select the head when nothing truthy is selected; on failure only
log and surface a popup. -/
def loadConnections (s : QueryViewState) (res : Except Unit PageData) : QueryViewState :=
  match res with
  | Except.ok page =>
    let conns := page.items.filter (fun c => c.status == 1)
    match conns.head? with
    | some c =>
      if !connSelected s.selectedConnectionId then
        { s with connections := conns, selectedConnectionId := some c.id }
      else
        { s with connections := conns }
    | none => { s with connections := conns }
  | Except.error _ =>
    { s with notifications := s.notifications ++ ["加载数据源失败"] }

/-- External events driving the view: typing into the query input, pressing
send, an SSE message or error delivered on a given channel, the clear
button, and the result of the connection fetch arriving. -/
inductive UIEvent where
  | setQuery (q : String)
  | send
  | chunk (cid : Nat) (eventType : String) (payload : Option ChunkData)
  | errorEvt (cid : Nat)
  | clear
  | fetched (res : Except Unit PageData)
deriving Repr

/-- One step of the view: an SSE event reaches its handlers exactly when the
channel it was sent on is still open (a closed EventSource delivers
nothing). -/
def step (s : QueryViewState) (e : UIEvent) : QueryViewState :=
  match e with
  | UIEvent.setQuery q => { s with query := q }
  | UIEvent.send => handleSend s
  | UIEvent.chunk cid ty payload =>
    match s.openChannels.find? (fun c => c.cid == cid) with
    | some ch => onmessage s ch ty payload
    | none => s
  | UIEvent.errorEvt cid =>
    match s.openChannels.find? (fun c => c.cid == cid) with
    | some ch => onerror s ch
    | none => s
  | UIEvent.clear => handleClear s
  | UIEvent.fetched res => loadConnections s res

/-- Run a trace of events. -/
def run (s : QueryViewState) (tr : List UIEvent) : QueryViewState :=
  tr.foldl step s

/-- The state the view mounts with. -/
def emptyState : QueryViewState :=
  { query := "", loading := false, messages := [], connections := [],
    selectedConnectionId := none, eventSource := none, openChannels := [],
    currentSessionId := 0, notifications := [], nextId := 0 }

/-- A sample enabled connection with id 5, as in the spec scenario. -/
def demoConn : ConnSourceDTO :=
  { id := 5, name := "sales", conn_type := "mysql", host := "localhost",
    port := 3306, username := "root", password_encrypted := "x",
    db_name := "salesdb", status := 1, description := none }

/-- The identities of a list of channels. -/
def chanIds (l : List Channel) : List Nat := l.map Channel.cid

/-- The reachable-state invariant of the view: either no channel is open and
the eventSource reference is null, or exactly one channel is open, the
reference holds it, and loading is set.  It holds on mount and is preserved
by every step. -/
def SessionInv (s : QueryViewState) : Prop :=
  (s.eventSource = none ∧ s.openChannels = []) ∨
  (∃ ch, s.openChannels = [ch] ∧ s.eventSource = some ch.cid ∧ s.loading = true)

/-- Every open channel has an identity below the freshness counter. -/
def cidBound (s : QueryViewState) : Prop :=
  ∀ x ∈ chanIds s.openChannels, x < s.nextId

/-- Trace of the spec scenario: connections load (one enabled connection
with id 5), the sales query is sent, two content chunks and one purely
final chunk arrive on the opened channel (cid 3). -/
def scenarioEvents : List UIEvent :=
  [UIEvent.fetched (Except.ok ⟨[demoConn], 1⟩),
   UIEvent.setQuery "查询销售额最高的10个产品",
   UIEvent.send,
   UIEvent.chunk 3 "message" (some ⟨some "销", false⟩),
   UIEvent.chunk 3 "message" (some ⟨some "售", false⟩),
   UIEvent.chunk 3 "message" (some ⟨none, true⟩)]

/-- Mounted state with the demo connection loaded, auto-selected, and a
query typed into the input. -/
def readyState : QueryViewState :=
  { emptyState with
    connections := [demoConn], selectedConnectionId := some 5, query := "hi" }

/-- State reached by loading connections, typing a query and pressing send:
one channel (cid 3) is open and the transcript ends with the pending
assistant placeholder. -/
def streamingState : QueryViewState :=
  run emptyState
    [UIEvent.fetched (Except.ok ⟨[demoConn], 1⟩), UIEvent.setQuery "hi", UIEvent.send]

/-- An artificial state with an open channel but an empty transcript, used
to exercise the last-message guards of the handlers. -/
def orphanState : QueryViewState :=
  { emptyState with
    openChannels := [⟨3, ""⟩], eventSource := some 3, loading := true }

/-- A state whose registry already holds a connection, prior to a failing
refetch. -/
def priorRegistryState : QueryViewState :=
  { emptyState with connections := [demoConn] }

/-- First-session trace for the interleaving theorem: load, type, send
(opens the channel with cid 3). -/
def trFirst : List UIEvent :=
  [UIEvent.fetched (Except.ok ⟨[demoConn], 1⟩), UIEvent.setQuery "q1", UIEvent.send]

/-- Second-session trace: the first session finishes with a final chunk,
then a second query is typed and sent (opens the channel with cid 7). -/
def trSecond : List UIEvent :=
  [UIEvent.chunk 3 "message" (some ⟨some "a", true⟩),
   UIEvent.setQuery "q2", UIEvent.send]

/-! Helper lemmas about the last-message mutation pattern. -/

theorem updateLast_of_assistant (f : ChatMessage → ChatMessage) (l : List ChatMessage)
    (m : ChatMessage) (h : l.getLast? = some m) (hm : m.type = Role.assistant) :
    updateLast f l = l.dropLast ++ [f m] := by
  unfold updateLast
  rw [h]
  simp [hm]

theorem updateLast_of_no_assistant (f : ChatMessage → ChatMessage) (l : List ChatMessage)
    (h : l = [] ∨ ∃ m, l.getLast? = some m ∧ m.type = Role.user) :
    updateLast f l = l := by
  unfold updateLast
  rcases h with h | ⟨m, hm, hu⟩
  · subst h; rfl
  · rw [hm]; simp [hu]

/-- C2: for a query that is non-empty after trimming, with a truthy selected
connection and loading not set, handleSend appends exactly two turns to the
transcript: a user turn carrying the trimmed query, then an assistant
placeholder with empty text and loading set, in that order. -/
theorem handleSend_appends_user_then_pending_assistant (s : QueryViewState)
    (hq : jsTrim s.query ≠ "") (hc : connSelected s.selectedConnectionId = true)
    (hl : s.loading = false) :
    ∃ u a, (handleSend s).messages = s.messages ++ [u, a] ∧
      u.type = Role.user ∧ u.content = jsTrim s.query ∧ u.loading = false ∧ u.error = none ∧
      a.type = Role.assistant ∧ a.content = "" ∧ a.loading = true ∧ a.error = none := by
  refine ⟨{ id := s.nextId, type := Role.user, content := jsTrim s.query,
            loading := false, error := none },
          { id := s.nextId + 1, type := Role.assistant, content := "",
            loading := true, error := none },
          ?_, rfl, rfl, rfl, rfl, rfl, rfl, rfl, rfl⟩
  simp [handleSend, hq, hc, hl]

/-- Closed instance of the C2 theorem at the ready state. -/
theorem handleSend_appends_user_then_pending_assistant_witness :
    ∃ u a, (handleSend readyState).messages = readyState.messages ++ [u, a] ∧
      u.type = Role.user ∧ u.content = jsTrim readyState.query ∧
      u.loading = false ∧ u.error = none ∧
      a.type = Role.assistant ∧ a.content = "" ∧ a.loading = true ∧ a.error = none :=
  handleSend_appends_user_then_pending_assistant readyState
    (by decide) (by decide) (by decide)

/-- C3: in the spec scenario (sales query against connection 5, chunks 销,
售, then a purely final chunk), the transcript ends as the user turn
followed by an assistant turn with text 销售 and loading cleared, the
channel is closed and loading is reset. -/
theorem scenario_sales_stream :
    ((run emptyState scenarioEvents).messages.map (fun m => (m.type, m.content, m.loading)) =
      [(Role.user, "查询销售额最高的10个产品", false),
       (Role.assistant, "销售", false)]) ∧
    (run emptyState scenarioEvents).selectedConnectionId = some 5 ∧
    (run emptyState scenarioEvents).eventSource = none ∧
    (run emptyState scenarioEvents).loading = false := by
  decide

/-- C6: a chunk whose payload fails to parse leaves the whole view state
unchanged: the transcript, the accumulated text of the open channel, the
session flags and the channel itself are exactly as before. -/
theorem malformed_chunk_is_noop (s : QueryViewState) (cid : Nat) (ty : String) :
    step s (UIEvent.chunk cid ty none) = s := by
  simp only [step]
  cases s.openChannels.find? (fun c => c.cid == cid) with
  | none => rfl
  | some ch => rfl

/-- C7: an empty trimmed query, a falsy selected connection, or loading
already set makes handleSend a no-op apart from a warning popup in the
first two cases: restoring the notifications field restores the entire
state, and in the loading case the state is returned untouched. -/
theorem handleSend_rejects_invalid (s : QueryViewState)
    (h : jsTrim s.query = "" ∨ connSelected s.selectedConnectionId = false ∨
      s.loading = true) :
    ({ handleSend s with notifications := s.notifications } = s) ∧
    (jsTrim s.query = "" → (handleSend s).notifications = s.notifications ++ ["请输入问题"]) ∧
    (jsTrim s.query ≠ "" → connSelected s.selectedConnectionId = false →
      (handleSend s).notifications = s.notifications ++ ["请先选择数据源"]) ∧
    (jsTrim s.query ≠ "" → connSelected s.selectedConnectionId = true → s.loading = true →
      handleSend s = s) := by
  refine ⟨?_, ?_, ?_, ?_⟩
  · rcases h with h | h | h
    · simp [handleSend, h]
    · by_cases hq : jsTrim s.query = "" <;> simp [handleSend, hq, h]
    · by_cases hq : jsTrim s.query = ""
      · simp [handleSend, hq]
      · by_cases hc : connSelected s.selectedConnectionId
        · have hs : handleSend s = s := by simp [handleSend, hq, hc, h]
          rw [hs]
        · simp [handleSend, hq, hc]
  · intro hq; simp [handleSend, hq]
  · intro hq hc; simp [handleSend, hq, hc]
  · intro hq hc hl; simp [handleSend, hq, hc, hl]

/-- Closed instance of the C7 theorem at the mounted state, whose query is
empty. -/
theorem handleSend_rejects_invalid_witness :
    ({ handleSend emptyState with notifications := emptyState.notifications } = emptyState) ∧
    (handleSend emptyState).notifications = emptyState.notifications ++ ["请输入问题"] :=
  ⟨(handleSend_rejects_invalid emptyState (Or.inl (by decide))).1,
   (handleSend_rejects_invalid emptyState (Or.inl (by decide))).2.1 (by decide)⟩

/-- C9 counterexample: with a connection already in the registry, a failed
refetch leaves the exposed connection list non-empty, refuting the claim
that the list is empty after every failed fetch. -/
theorem loadConnections_failure_keeps_prior_list :
    (loadConnections priorRegistryState (Except.error ())).connections ≠ [] := by
  decide

/-- C9 amended: a failed connection fetch surfaces the popup 加载数据源失败
and changes nothing else; the connection list is left unchanged, hence it
is still empty on a failing initial load. -/
theorem loadConnections_failure_leaves_state (s : QueryViewState) :
    (loadConnections s (Except.error ())).connections = s.connections ∧
    (loadConnections s (Except.error ())).notifications =
      s.notifications ++ ["加载数据源失败"] ∧
    ({ loadConnections s (Except.error ()) with notifications := s.notifications } = s) := by
  refine ⟨rfl, rfl, rfl⟩

/-- C10: when the transcript is empty or ends with a user turn, the chunk
handler (content branch and final branch alike) and the transport-error
handler leave every transcript turn unchanged; being total functions they
cannot fault. -/
theorem handlers_guard_last_assistant (s : QueryViewState) (cid : Nat) (ty : String)
    (payload : Option ChunkData)
    (h : s.messages = [] ∨ ∃ m, s.messages.getLast? = some m ∧ m.type = Role.user) :
    (step s (UIEvent.chunk cid ty payload)).messages = s.messages ∧
    (step s (UIEvent.errorEvt cid)).messages = s.messages := by
  have hu : ∀ f, updateLast f s.messages = s.messages :=
    fun f => updateLast_of_no_assistant f s.messages h
  constructor
  · simp only [step]
    cases hf : s.openChannels.find? (fun c => c.cid == cid) with
    | none => rfl
    | some ch =>
      cases payload with
      | none => rfl
      | some data =>
        simp only [onmessage]
        have h1 : ((appendContent s ch data).1).messages = s.messages := by
          unfold appendContent
          cases hc : data.content with
          | none => rfl
          | some str =>
            by_cases hstr : str = ""
            · simp [hstr]
            · simp [hstr, hu]
        by_cases hfin : (data.is_final || ty == "final_result") = true
        · simp only [hfin, if_true, finalize]
          rw [h1, hu]
        · simp only [hfin, if_false, Bool.false_eq_true]
          exact h1
  · simp only [step]
    cases hf : s.openChannels.find? (fun c => c.cid == cid) with
    | none => rfl
    | some ch =>
      simp only [onerror]
      exact hu _

/-- Closed instance of the C10 theorem: a content chunk and a transport
error delivered on an open channel over an empty transcript change no
transcript turn. -/
theorem handlers_guard_last_assistant_witness :
    (step orphanState (UIEvent.chunk 3 "message" (some ⟨some "x", false⟩))).messages =
      orphanState.messages ∧
    (step orphanState (UIEvent.errorEvt 3)).messages = orphanState.messages :=
  handlers_guard_last_assistant orphanState 3 "message" (some ⟨some "x", false⟩)
    (Or.inl (by decide))

/-- C5: a transport-level error on the open channel closes it, nulls the
reference, clears loading, rewrites the last assistant turn with loading
false and the fixed non-empty error text 连接失败，请稍后重试 while keeping
its accumulated content, and surfaces a popup; no new channel is opened.
With the placeholder still empty this yields an empty-text failed turn. -/
theorem transport_error_fails_session (s : QueryViewState) (ch : Channel) (m : ChatMessage)
    (hopen : s.openChannels = [ch]) (hlast : s.messages.getLast? = some m)
    (hm : m.type = Role.assistant) :
    (step s (UIEvent.errorEvt ch.cid)).openChannels = [] ∧
    (step s (UIEvent.errorEvt ch.cid)).eventSource = none ∧
    (step s (UIEvent.errorEvt ch.cid)).loading = false ∧
    (step s (UIEvent.errorEvt ch.cid)).messages =
      s.messages.dropLast ++
        [{ m with loading := false, error := some "连接失败，请稍后重试" }] ∧
    (step s (UIEvent.errorEvt ch.cid)).notifications =
      s.notifications ++ ["连接失败，请稍后重试"] ∧
    ("连接失败，请稍后重试" : String) ≠ "" := by
  have hstep : step s (UIEvent.errorEvt ch.cid) = onerror s ch := by
    simp only [step]
    rw [hopen]
    simp
  rw [hstep]
  refine ⟨?_, rfl, rfl, ?_, rfl, by decide⟩
  · simp only [onerror]
    rw [hopen]
    simp
  · simp only [onerror]
    exact updateLast_of_assistant _ _ _ hlast hm

/-- Closed instance of the C5 theorem at the streaming state, where the
placeholder is still empty. -/
theorem transport_error_fails_session_witness :
    (step streamingState (UIEvent.errorEvt (Channel.mk 3 "").cid)).openChannels = [] ∧
    (step streamingState (UIEvent.errorEvt (Channel.mk 3 "").cid)).eventSource = none ∧
    (step streamingState (UIEvent.errorEvt (Channel.mk 3 "").cid)).loading = false ∧
    (step streamingState (UIEvent.errorEvt (Channel.mk 3 "").cid)).messages =
      streamingState.messages.dropLast ++
        [{ ChatMessage.mk 1 Role.assistant "" true none with
            loading := false, error := some "连接失败，请稍后重试" }] ∧
    (step streamingState (UIEvent.errorEvt (Channel.mk 3 "").cid)).notifications =
      streamingState.notifications ++ ["连接失败，请稍后重试"] ∧
    ("连接失败，请稍后重试" : String) ≠ "" :=
  transport_error_fails_session streamingState (Channel.mk 3 "")
    (ChatMessage.mk 1 Role.assistant "" true none) (by decide) (by decide) (by decide)

/-! Shape lemmas for the content branch of the chunk handler. -/

theorem appendContent_of_none (s : QueryViewState) (ch : Channel) (data : ChunkData)
    (h : data.content = none) : appendContent s ch data = (s, ch) := by
  unfold appendContent
  rw [h]

theorem appendContent_of_empty (s : QueryViewState) (ch : Channel) (data : ChunkData)
    (h : data.content = some "") : appendContent s ch data = (s, ch) := by
  unfold appendContent
  rw [h]
  simp

theorem appendContent_of_some (s : QueryViewState) (ch : Channel) (data : ChunkData)
    (str : String) (h : data.content = some str) (hstr : str ≠ "") :
    appendContent s ch data =
      ({ s with
          openChannels := s.openChannels.map
            (fun c => if c.cid == ch.cid then { ch with aiContent := ch.aiContent ++ str } else c),
          messages := updateLast
            (fun m => { m with content := ch.aiContent ++ str, loading := !data.is_final })
            s.messages },
        { ch with aiContent := ch.aiContent ++ str }) := by
  unfold appendContent
  rw [h]
  simp [hstr]

/-- C4: any terminal event on the open channel, whether the payload carries
is_final true or the event is of the distinct final_result kind with
is_final false on the payload, closes the channel, nulls the reference,
clears loading, and forces the loading flag of the final assistant turn to
false. -/
theorem terminal_event_finalizes (s : QueryViewState) (ch : Channel) (ty : String)
    (data : ChunkData) (m : ChatMessage)
    (hopen : s.openChannels = [ch]) (hlast : s.messages.getLast? = some m)
    (hm : m.type = Role.assistant)
    (hfin : data.is_final = true ∨ ty = "final_result") :
    (step s (UIEvent.chunk ch.cid ty (some data))).openChannels = [] ∧
    (step s (UIEvent.chunk ch.cid ty (some data))).eventSource = none ∧
    (step s (UIEvent.chunk ch.cid ty (some data))).loading = false ∧
    ((step s (UIEvent.chunk ch.cid ty (some data))).messages.getLast?).map
      ChatMessage.loading = some false := by
  have hb : (data.is_final || ty == "final_result") = true := by
    rcases hfin with h | h
    · simp [h]
    · simp [h]
  have hstep : step s (UIEvent.chunk ch.cid ty (some data)) =
      finalize (appendContent s ch data).1 ch := by
    simp only [step]
    rw [hopen]
    simp [onmessage, hb]
  rw [hstep]
  have hs1open : ∀ c ∈ ((appendContent s ch data).1).openChannels, c.cid = ch.cid := by
    cases hc : data.content with
    | none =>
      rw [appendContent_of_none s ch data hc]
      intro c hcm
      rw [hopen] at hcm
      simp at hcm
      rw [hcm]
    | some str =>
      by_cases hstr : str = ""
      · subst hstr
        rw [appendContent_of_empty s ch data hc]
        intro c hcm
        rw [hopen] at hcm
        simp at hcm
        rw [hcm]
      · rw [appendContent_of_some s ch data str hc hstr]
        intro c hcm
        rw [hopen] at hcm
        simp at hcm
        rw [hcm]
  have hs1last : ∃ m1, ((appendContent s ch data).1).messages.getLast? = some m1 ∧
      m1.type = Role.assistant := by
    cases hc : data.content with
    | none =>
      rw [appendContent_of_none s ch data hc]
      exact ⟨m, hlast, hm⟩
    | some str =>
      by_cases hstr : str = ""
      · subst hstr
        rw [appendContent_of_empty s ch data hc]
        exact ⟨m, hlast, hm⟩
      · rw [appendContent_of_some s ch data str hc hstr]
        refine ⟨{ m with content := ch.aiContent ++ str, loading := !data.is_final },
          ?_, hm⟩
        show (updateLast _ s.messages).getLast? = _
        rw [updateLast_of_assistant _ _ _ hlast hm, List.getLast?_concat]
  obtain ⟨m1, hml, hmt⟩ := hs1last
  refine ⟨?_, rfl, rfl, ?_⟩
  · simp only [finalize]
    apply List.filter_eq_nil_iff.mpr
    intro c hcmem
    simp [hs1open c hcmem]
  · simp only [finalize]
    rw [updateLast_of_assistant _ _ _ hml hmt, List.getLast?_concat]
    rfl

/-- Closed instance of the C4 theorem: a final_result event whose payload
carries is_final false still finalizes the session. -/
theorem terminal_event_finalizes_witness :
    (step streamingState
      (UIEvent.chunk (Channel.mk 3 "").cid "final_result"
        (some ⟨some "done", false⟩))).openChannels = [] ∧
    (step streamingState
      (UIEvent.chunk (Channel.mk 3 "").cid "final_result"
        (some ⟨some "done", false⟩))).eventSource = none ∧
    (step streamingState
      (UIEvent.chunk (Channel.mk 3 "").cid "final_result"
        (some ⟨some "done", false⟩))).loading = false ∧
    ((step streamingState
      (UIEvent.chunk (Channel.mk 3 "").cid "final_result"
        (some ⟨some "done", false⟩))).messages.getLast?).map
      ChatMessage.loading = some false :=
  terminal_event_finalizes streamingState (Channel.mk 3 "") "final_result"
    ⟨some "done", false⟩ (ChatMessage.mk 1 Role.assistant "" true none)
    (by decide) (by decide) (by decide) (Or.inr rfl)

/-! Bookkeeping lemmas for channel identities and the session invariant. -/

theorem chanIds_append (l1 l2 : List Channel) :
    chanIds (l1 ++ l2) = chanIds l1 ++ chanIds l2 :=
  List.map_append Channel.cid l1 l2

theorem chanIds_filter_subset (p : Channel → Bool) (l : List Channel) (x : Nat)
    (h : x ∈ chanIds (l.filter p)) : x ∈ chanIds l := by
  simp only [chanIds, List.mem_map] at h ⊢
  obtain ⟨c, hc, rfl⟩ := h
  exact ⟨c, List.mem_of_mem_filter hc, rfl⟩

theorem chanIds_map_preserve (f : Channel → Channel) (hf : ∀ c, (f c).cid = c.cid)
    (l : List Channel) : chanIds (l.map f) = chanIds l := by
  simp only [chanIds, List.map_map]
  exact List.map_congr_left (fun c _ => hf c)

theorem appendContent_nextId (s : QueryViewState) (ch : Channel) (data : ChunkData) :
    ((appendContent s ch data).1).nextId = s.nextId := by
  cases hc : data.content with
  | none => rw [appendContent_of_none s ch data hc]
  | some str =>
    by_cases hstr : str = ""
    · subst hstr
      rw [appendContent_of_empty s ch data hc]
    · rw [appendContent_of_some s ch data str hc hstr]

theorem appendContent_chanIds (s : QueryViewState) (ch : Channel) (data : ChunkData) :
    chanIds ((appendContent s ch data).1).openChannels = chanIds s.openChannels := by
  cases hc : data.content with
  | none => rw [appendContent_of_none s ch data hc]
  | some str =>
    by_cases hstr : str = ""
    · subst hstr
      rw [appendContent_of_empty s ch data hc]
    · rw [appendContent_of_some s ch data str hc hstr]
      apply chanIds_map_preserve
      intro c
      by_cases hb : (c.cid == ch.cid) = true
      · have hcc : c.cid = ch.cid := by simpa using hb
        simp [hb, hcc]
      · simp [hb]

theorem onmessage_nextId (s : QueryViewState) (ch : Channel) (ty : String)
    (payload : Option ChunkData) : (onmessage s ch ty payload).nextId = s.nextId := by
  cases payload with
  | none => rfl
  | some data =>
    simp only [onmessage]
    by_cases hfin : (data.is_final || ty == "final_result") = true
    · simp only [hfin, if_true, finalize]
      exact appendContent_nextId s ch data
    · simp only [hfin, if_false, Bool.false_eq_true]
      exact appendContent_nextId s ch data

theorem loadConnections_session_fields (s : QueryViewState) (res : Except Unit PageData) :
    (loadConnections s res).eventSource = s.eventSource ∧
    (loadConnections s res).openChannels = s.openChannels ∧
    (loadConnections s res).loading = s.loading ∧
    (loadConnections s res).nextId = s.nextId := by
  cases res with
  | error e => exact ⟨rfl, rfl, rfl, rfl⟩
  | ok page =>
    simp only [loadConnections]
    cases (page.items.filter (fun c => c.status == 1)).head? with
    | none => exact ⟨rfl, rfl, rfl, rfl⟩
    | some c =>
      by_cases h : connSelected s.selectedConnectionId = true <;> simp [h]

theorem handleSend_cases (s : QueryViewState) :
    ((handleSend s).openChannels = s.openChannels ∧ (handleSend s).nextId = s.nextId) ∨
    ((handleSend s).openChannels =
        (match s.eventSource with
          | some cid => s.openChannels.filter (fun c => !(c.cid == cid))
          | none => s.openChannels) ++ [⟨s.nextId + 3, ""⟩] ∧
      (handleSend s).nextId = s.nextId + 4) := by
  by_cases hq : jsTrim s.query = ""
  · left
    constructor <;> simp [handleSend, hq]
  · by_cases hc : connSelected s.selectedConnectionId
    · by_cases hl : s.loading
      · left
        constructor <;> simp [handleSend, hq, hc, hl]
      · right
        constructor <;> simp [handleSend, hq, hc, hl]
    · left
      constructor <;> simp [handleSend, hq, hc]

theorem sessionInv_of_fields (s t : QueryViewState)
    (h1 : t.eventSource = s.eventSource) (h2 : t.openChannels = s.openChannels)
    (h3 : t.loading = s.loading) (h : SessionInv s) : SessionInv t := by
  unfold SessionInv at h ⊢
  rw [h1, h2, h3]
  exact h

theorem finalize_closes (s1 : QueryViewState) (ch : Channel)
    (h : ∀ c ∈ s1.openChannels, c.cid = ch.cid) : SessionInv (finalize s1 ch) := by
  refine Or.inl ⟨rfl, ?_⟩
  simp only [finalize]
  apply List.filter_eq_nil_iff.mpr
  intro c hc
  simp [h c hc]

theorem sessionInv_handleSend (s : QueryViewState) (h : SessionInv s) :
    SessionInv (handleSend s) := by
  by_cases hq : jsTrim s.query = ""
  · exact sessionInv_of_fields s _ (by simp [handleSend, hq]) (by simp [handleSend, hq])
      (by simp [handleSend, hq]) h
  · by_cases hc : connSelected s.selectedConnectionId
    · by_cases hl : s.loading
      · have hs : handleSend s = s := by simp [handleSend, hq, hc, hl]
        rw [hs]
        exact h
      · rcases h with ⟨h1, h2⟩ | ⟨ch, h1, h2, h3⟩
        · refine Or.inr ⟨⟨s.nextId + 3, ""⟩, ?_, ?_, ?_⟩
          · simp [handleSend, hq, hc, hl, h1, h2]
          · simp [handleSend, hq, hc, hl]
          · simp [handleSend, hq, hc, hl]
        · rw [h3] at hl
          exact absurd rfl hl
    · exact sessionInv_of_fields s _ (by simp [handleSend, hq, hc])
        (by simp [handleSend, hq, hc]) (by simp [handleSend, hq, hc]) h

theorem sessionInv_handleClear (s : QueryViewState) (h : SessionInv s) :
    SessionInv (handleClear s) := by
  rcases h with ⟨h1, h2⟩ | ⟨ch, h1, h2, h3⟩
  · refine Or.inl ⟨rfl, ?_⟩
    simp only [handleClear]
    rw [h1]
    exact h2
  · refine Or.inl ⟨rfl, ?_⟩
    simp only [handleClear]
    rw [h2, h1]
    simp

theorem sessionInv_step (s : QueryViewState) (e : UIEvent) (h : SessionInv s) :
    SessionInv (step s e) := by
  cases e with
  | setQuery q => exact sessionInv_of_fields s _ rfl rfl rfl h
  | send => exact sessionInv_handleSend s h
  | clear => exact sessionInv_handleClear s h
  | fetched res =>
    obtain ⟨h1, h2, h3, _⟩ := loadConnections_session_fields s res
    exact sessionInv_of_fields s _ h1 h2 h3 h
  | errorEvt cid =>
    simp only [step]
    cases hf : s.openChannels.find? (fun c => c.cid == cid) with
    | none => exact h
    | some ch =>
      rcases h with ⟨h1, h2⟩ | ⟨ch0, h1, h2, h3⟩
      · rw [h2] at hf
        simp at hf
      · have hch : ch = ch0 := by
          have hmem : ch ∈ [ch0] := by
            rw [← h1]
            exact List.mem_of_find?_eq_some hf
          simpa using hmem
        refine Or.inl ⟨rfl, ?_⟩
        simp only [onerror]
        rw [h1, hch]
        simp
  | chunk cid ty payload =>
    simp only [step]
    cases hf : s.openChannels.find? (fun c => c.cid == cid) with
    | none => exact h
    | some ch =>
      rcases h with ⟨h1, h2⟩ | ⟨ch0, h1, h2, h3⟩
      · rw [h2] at hf
        simp at hf
      · have hch : ch = ch0 := by
          have hmem : ch ∈ [ch0] := by
            rw [← h1]
            exact List.mem_of_find?_eq_some hf
          simpa using hmem
        subst hch
        cases payload with
        | none => exact Or.inr ⟨ch, h1, h2, h3⟩
        | some data =>
          simp only [onmessage]
          have hopenAll : ∀ c ∈ ((appendContent s ch data).1).openChannels, c.cid = ch.cid := by
            cases hcd : data.content with
            | none =>
              rw [appendContent_of_none s ch data hcd]
              intro c hcm
              rw [h1] at hcm
              simp at hcm
              rw [hcm]
            | some str =>
              by_cases hstr : str = ""
              · subst hstr
                rw [appendContent_of_empty s ch data hcd]
                intro c hcm
                rw [h1] at hcm
                simp at hcm
                rw [hcm]
              · rw [appendContent_of_some s ch data str hcd hstr]
                intro c hcm
                rw [h1] at hcm
                simp at hcm
                rw [hcm]
          by_cases hfin : (data.is_final || ty == "final_result") = true
          · simp only [hfin, if_true]
            exact finalize_closes _ ch hopenAll
          · simp only [hfin, if_false, Bool.false_eq_true]
            cases hcd : data.content with
            | none =>
              rw [appendContent_of_none s ch data hcd]
              exact Or.inr ⟨ch, h1, h2, h3⟩
            | some str =>
              by_cases hstr : str = ""
              · subst hstr
                rw [appendContent_of_empty s ch data hcd]
                exact Or.inr ⟨ch, h1, h2, h3⟩
              · rw [appendContent_of_some s ch data str hcd hstr]
                refine Or.inr ⟨{ ch with aiContent := ch.aiContent ++ str }, ?_, ?_, ?_⟩
                · show s.openChannels.map _ = _
                  rw [h1]
                  simp
                · show s.eventSource = _
                  rw [h2]
                · exact h3

theorem sessionInv_run (s : QueryViewState) (tr : List UIEvent) (h : SessionInv s) :
    SessionInv (run s tr) := by
  induction tr generalizing s with
  | nil => exact h
  | cons e tr ih => exact ih (step s e) (sessionInv_step s e h)

theorem nextId_le_step (s : QueryViewState) (e : UIEvent) : s.nextId ≤ (step s e).nextId := by
  cases e with
  | setQuery q => exact Nat.le_refl _
  | clear => exact Nat.le_refl _
  | fetched res =>
    obtain ⟨_, _, _, hn⟩ := loadConnections_session_fields s res
    simp only [step]
    rw [hn]
  | send =>
    simp only [step]
    rcases handleSend_cases s with ⟨_, hn⟩ | ⟨_, hn⟩ <;> omega
  | chunk cid ty payload =>
    simp only [step]
    cases hf : s.openChannels.find? (fun c => c.cid == cid) with
    | none => exact Nat.le_refl _
    | some ch =>
      rw [onmessage_nextId]
  | errorEvt cid =>
    simp only [step]
    cases hf : s.openChannels.find? (fun c => c.cid == cid) with
    | none => exact Nat.le_refl _
    | some ch => exact Nat.le_refl _

theorem stale_step (s : QueryViewState) (e : UIEvent) (c : Nat)
    (h1 : c < s.nextId) (h2 : c ∉ chanIds s.openChannels) :
    c < (step s e).nextId ∧ c ∉ chanIds (step s e).openChannels := by
  cases e with
  | setQuery q => exact ⟨h1, h2⟩
  | fetched res =>
    obtain ⟨_, hop, _, hn⟩ := loadConnections_session_fields s res
    constructor
    · simp only [step]
      rw [hn]
      exact h1
    · simp only [step]
      rw [hop]
      exact h2
  | clear =>
    refine ⟨h1, ?_⟩
    simp only [step, handleClear]
    cases hse : s.eventSource with
    | none => exact h2
    | some cid => exact fun hx => h2 (chanIds_filter_subset _ _ _ hx)
  | send =>
    simp only [step]
    rcases handleSend_cases s with ⟨hop, hn⟩ | ⟨hop, hn⟩
    · rw [hop, hn]
      exact ⟨h1, h2⟩
    · rw [hop, hn]
      refine ⟨by omega, ?_⟩
      intro hx
      rw [chanIds_append] at hx
      rcases List.mem_append.mp hx with hx | hx
      · revert hx
        cases hse : s.eventSource with
        | none => exact fun hx => h2 hx
        | some cid => exact fun hx => h2 (chanIds_filter_subset _ _ _ hx)
      · have hx3 : c = s.nextId + 3 := by simpa [chanIds] using hx
        omega
  | chunk cid ty payload =>
    simp only [step]
    cases hf : s.openChannels.find? (fun c => c.cid == cid) with
    | none => exact ⟨h1, h2⟩
    | some ch =>
      refine ⟨by rw [onmessage_nextId]; exact h1, ?_⟩
      cases payload with
      | none => exact h2
      | some data =>
        simp only [onmessage]
        by_cases hfin : (data.is_final || ty == "final_result") = true
        · simp only [hfin, if_true, finalize]
          intro hx
          have hx2 := chanIds_filter_subset _ _ _ hx
          rw [appendContent_chanIds] at hx2
          exact h2 hx2
        · simp only [hfin, if_false, Bool.false_eq_true]
          intro hx
          rw [appendContent_chanIds] at hx
          exact h2 hx
  | errorEvt cid =>
    simp only [step]
    cases hf : s.openChannels.find? (fun c => c.cid == cid) with
    | none => exact ⟨h1, h2⟩
    | some ch =>
      refine ⟨h1, ?_⟩
      simp only [onerror]
      exact fun hx => h2 (chanIds_filter_subset _ _ _ hx)

theorem stale_run (s : QueryViewState) (tr : List UIEvent) (c : Nat)
    (h1 : c < s.nextId) (h2 : c ∉ chanIds s.openChannels) :
    c < (run s tr).nextId ∧ c ∉ chanIds (run s tr).openChannels := by
  induction tr generalizing s with
  | nil => exact ⟨h1, h2⟩
  | cons e tr ih =>
    obtain ⟨g1, g2⟩ := stale_step s e c h1 h2
    exact ih (step s e) g1 g2

theorem cidBound_step (s : QueryViewState) (e : UIEvent) (h : cidBound s) :
    cidBound (step s e) := by
  cases e with
  | setQuery q => exact h
  | fetched res =>
    obtain ⟨_, hop, _, hn⟩ := loadConnections_session_fields s res
    intro x hx
    simp only [step] at hx ⊢
    rw [hop] at hx
    rw [hn]
    exact h x hx
  | clear =>
    intro x hx
    simp only [step, handleClear] at hx
    revert hx
    cases hse : s.eventSource with
    | none => exact fun hx => h x hx
    | some cid => exact fun hx => h x (chanIds_filter_subset _ _ _ hx)
  | send =>
    intro x hx
    simp only [step] at hx ⊢
    rcases handleSend_cases s with ⟨hop, hn⟩ | ⟨hop, hn⟩
    · rw [hop] at hx
      rw [hn]
      exact h x hx
    · rw [hn]
      rw [hop, chanIds_append] at hx
      rcases List.mem_append.mp hx with hx | hx
      · have hmem2 : x ∈ chanIds s.openChannels := by
          revert hx
          cases hse : s.eventSource with
          | none => exact id
          | some cid => exact fun hx => chanIds_filter_subset _ _ _ hx
        have := h x hmem2
        omega
      · have hx3 : x = s.nextId + 3 := by simpa [chanIds] using hx
        omega
  | chunk cid ty payload =>
    intro x hx
    simp only [step] at hx ⊢
    revert hx
    cases hf : s.openChannels.find? (fun c => c.cid == cid) with
    | none => exact fun hx => h x hx
    | some ch =>
      rw [onmessage_nextId]
      cases payload with
      | none => exact fun hx => h x hx
      | some data =>
        simp only [onmessage]
        by_cases hfin : (data.is_final || ty == "final_result") = true
        · simp only [hfin, if_true, finalize]
          intro hx
          have hx2 := chanIds_filter_subset _ _ _ hx
          rw [appendContent_chanIds] at hx2
          exact h x hx2
        · simp only [hfin, if_false, Bool.false_eq_true]
          intro hx
          rw [appendContent_chanIds] at hx
          exact h x hx
  | errorEvt cid =>
    intro x hx
    simp only [step] at hx ⊢
    revert hx
    cases hf : s.openChannels.find? (fun c => c.cid == cid) with
    | none => exact fun hx => h x hx
    | some ch =>
      simp only [onerror]
      exact fun hx => h x (chanIds_filter_subset _ _ _ hx)

theorem cidBound_run (s : QueryViewState) (tr : List UIEvent) (h : cidBound s) :
    cidBound (run s tr) := by
  induction tr generalizing s with
  | nil => exact h
  | cons e tr ih => exact ih (step s e) (cidBound_step s e h)

theorem nextId_le_run (s : QueryViewState) (tr : List UIEvent) :
    s.nextId ≤ (run s tr).nextId := by
  induction tr generalizing s with
  | nil => exact Nat.le_refl _
  | cons e tr ih => exact Nat.le_trans (nextId_le_step s e) (ih (step s e))

theorem find?_eq_none_of_not_mem (l : List Channel) (c : Nat)
    (h : c ∉ chanIds l) : l.find? (fun x => x.cid == c) = none := by
  apply List.find?_eq_none.mpr
  intro x hx
  intro hbeq
  apply h
  simp only [chanIds, List.mem_map]
  exact ⟨x, hx, by simpa using hbeq⟩

/-- C8: from any reachable state, including mid-stream, handleClear empties
the transcript, leaves no channel open, nulls the reference and clears the
loading flag; it is a total function, so it never fails. -/
theorem handleClear_resets (s : QueryViewState) (h : SessionInv s) :
    (handleClear s).messages = [] ∧ (handleClear s).openChannels = [] ∧
    (handleClear s).eventSource = none ∧ (handleClear s).loading = false := by
  refine ⟨rfl, ?_, rfl, rfl⟩
  rcases h with ⟨h1, h2⟩ | ⟨ch, h1, h2, h3⟩
  · simp only [handleClear]
    rw [h1]
    exact h2
  · simp only [handleClear]
    rw [h2, h1]
    simp

/-- Closed instance of the C8 theorem at the mid-stream state. -/
theorem handleClear_resets_witness :
    (handleClear streamingState).messages = [] ∧
    (handleClear streamingState).openChannels = [] ∧
    (handleClear streamingState).eventSource = none ∧
    (handleClear streamingState).loading = false :=
  handleClear_resets streamingState
    (Or.inr ⟨⟨3, ""⟩, by decide, by decide, by decide⟩)

/-- C1: starting from a reachable state, once a second session has its
channel open (a channel distinct from the channel of an earlier session),
at most one channel is open and every chunk event carried by the earlier
session channel is ignored at that instant and at every later instant: the
step is the identity, so nothing of the first session ever reaches the
transcript again. -/
theorem no_stale_chunk_after_second_session (s0 : QueryViewState)
    (h0 : SessionInv s0) (hb : cidBound s0)
    (tr1 tr2 tr3 : List UIEvent) (ch1 ch2 : Channel)
    (h1 : (run s0 tr1).openChannels = [ch1])
    (h2 : (run (run s0 tr1) tr2).openChannels = [ch2])
    (hne : ch2.cid ≠ ch1.cid) (ty : String) (payload : Option ChunkData) :
    step (run (run (run s0 tr1) tr2) tr3) (UIEvent.chunk ch1.cid ty payload) =
      run (run (run s0 tr1) tr2) tr3 ∧
    (run (run (run s0 tr1) tr2) tr3).openChannels.length ≤ 1 := by
  have hb1 : cidBound (run s0 tr1) := cidBound_run s0 tr1 hb
  have hlt1 : ch1.cid < (run s0 tr1).nextId := by
    apply hb1
    rw [h1]
    simp [chanIds]
  have hlt2 : ch1.cid < (run (run s0 tr1) tr2).nextId :=
    Nat.lt_of_lt_of_le hlt1 (nextId_le_run (run s0 tr1) tr2)
  have hnot2 : ch1.cid ∉ chanIds (run (run s0 tr1) tr2).openChannels := by
    rw [h2]
    simp [chanIds]
    intro hcontra
    exact hne hcontra.symm
  obtain ⟨hlt3, hnot3⟩ := stale_run (run (run s0 tr1) tr2) tr3 ch1.cid hlt2 hnot2
  constructor
  · simp only [step]
    rw [find?_eq_none_of_not_mem _ _ hnot3]
  · have hinv : SessionInv (run (run (run s0 tr1) tr2) tr3) :=
      sessionInv_run _ tr3 (sessionInv_run _ tr2 (sessionInv_run _ tr1 h0))
    rcases hinv with ⟨_, hop⟩ | ⟨ch, hop, _, _⟩ <;> simp [hop]

/-- Closed instance of the C1 theorem: session one opens channel 3 and
finishes; session two opens channel 7; a late chunk of session one is then
ignored and at most one channel is open. -/
theorem no_stale_chunk_after_second_session_witness :
    step (run (run (run emptyState trFirst) trSecond) [])
        (UIEvent.chunk (Channel.mk 3 "").cid "message" (some ⟨some "z", false⟩)) =
      run (run (run emptyState trFirst) trSecond) [] ∧
    (run (run (run emptyState trFirst) trSecond) []).openChannels.length ≤ 1 :=
  no_stale_chunk_after_second_session emptyState (Or.inl ⟨rfl, rfl⟩)
    (by intro x hx; simp [emptyState, chanIds] at hx)
    trFirst trSecond [] (Channel.mk 3 "") (Channel.mk 7 "")
    (by decide) (by decide) (by decide) "message" (some ⟨some "z", false⟩)
